import Mathlib

/-!
Verification of the merge / admission-control service in
`src/py/generator_merge_service.py` (class `CandidateGeneratorService`).

The Python code is shallowly embedded: Python dicts become insertion-ordered
association lists, floats become rationals, and the float `log2` is an
uninterpreted function parameter `L : ℚ → ℚ` (every property below holds for
all `L`, and concrete computations pick a concrete `L`).  Each method of the
class becomes a pure function from the service state to the new state together
with the values dispatched to the ranker collaborators.
-/

namespace PipelinedEarlyRanker

/-- Result from a candidate generator (`GeneratorResult` in the source). -/
structure GeneratorResult where
  item_id : String
  rank : ℤ
  score : ℚ
deriving DecidableEq

/-- Lookup in an insertion-ordered association list; models `d.get(k)` /
`k in d` on a Python dict. -/
def dictGet {κ α : Type} [DecidableEq κ] : List (κ × α) → κ → Option α
  | [], _ => none
  | (k, v) :: rest, key => if k = key then some v else dictGet rest key

/-- Key assignment on an insertion-ordered association list; models
`d[k] = v` on a Python dict: an existing key keeps its position and gets the
new value, a new key is appended at the end. -/
def dictSet {κ α : Type} [DecidableEq κ] : List (κ × α) → κ → α → List (κ × α)
  | [], key, v => [(key, v)]
  | (k, w) :: rest, key, v =>
    if k = key then (k, v) :: rest else (k, w) :: dictSet rest key v

/-- The mutable state of `CandidateGeneratorService` (fields set in
`__init__`). -/
structure ServiceState where
  max_num_lsr : ℕ
  lsr_sufficiency_threshold : ℚ
  max_num_esr : ℕ
  lsr_batch_size : ℕ
  weights : List (ℤ × (ℚ × ℚ × ℚ))
  uv_dict : List (String × ℚ)
  num_lsr_sent : ℕ
  items_waiting_for_lsr : List String
  already_sent : List String
deriving DecidableEq

/-- The state built by `__init__`: configuration as given, empty estimate
store, zero sent counter, empty admission queue, empty sent-set. -/
def initState (max_num_lsr : ℕ) (lsr_sufficiency_threshold : ℚ)
    (max_num_esr lsr_batch_size : ℕ)
    (weights : List (ℤ × (ℚ × ℚ × ℚ))) : ServiceState :=
  { max_num_lsr := max_num_lsr
    lsr_sufficiency_threshold := lsr_sufficiency_threshold
    max_num_esr := max_num_esr
    lsr_batch_size := lsr_batch_size
    weights := weights
    uv_dict := []
    num_lsr_sent := 0
    items_waiting_for_lsr := []
    already_sent := [] }

/-- `calculate_user_value_estimate`:
`w0 * 1 / log2(max(1 + rank, 2)) + w1 * score + w2`, with the per-generator
weight triple defaulting to `(1, 1, 1)` and `log2` embedded as the
uninterpreted parameter `L`. -/
def calculate_user_value_estimate (L : ℚ → ℚ)
    (weights : List (ℤ × (ℚ × ℚ × ℚ))) (generator_id rank : ℤ)
    (score : ℚ) : ℚ :=
  let w := (dictGet weights generator_id).getD (1, 1, 1)
  w.1 * 1 / L ((max (1 + rank) 2 : ℤ) : ℚ) + w.2.1 * score + w.2.2

/-- The loop body of `send_to_late_stage_ranker`: walk the waiting list,
collect the items not yet in `already_sent` (first component) while marking
each collected item as sent (second component). -/
def flush_select : List String → List String → List String × List String
  | [], already_sent => ([], already_sent)
  | item :: rest, already_sent =>
    if item ∈ already_sent then flush_select rest already_sent
    else
      let p := flush_select rest (already_sent ++ [item])
      (item :: p.1, p.2)

/-- `send_to_late_stage_ranker`: filter the waiting list through the
sent-set, mark the survivors sent, add their count to `num_lsr_sent`, clear
the waiting list, and dispatch the survivors (second component). -/
def send_to_late_stage_ranker (s : ServiceState) : ServiceState × List String :=
  let p := flush_select s.items_waiting_for_lsr s.already_sent
  ({ s with already_sent := p.2
            num_lsr_sent := s.num_lsr_sent + p.1.length
            items_waiting_for_lsr := [] }, p.1)

/-- `enqueue_for_late_stage_ranker`: append the item to the waiting list when
the sent counter is below `max_num_lsr` and the item is not already waiting;
if the waiting list then reaches `lsr_batch_size`, flush it.  The second
component records the batches dispatched to the late-stage ranker. -/
def enqueue_for_late_stage_ranker (s : ServiceState) (item_id : String) :
    ServiceState × List (List String) :=
  if s.num_lsr_sent < s.max_num_lsr ∧ item_id ∉ s.items_waiting_for_lsr then
    if s.lsr_batch_size ≤ (s.items_waiting_for_lsr ++ [item_id]).length then
      let p := send_to_late_stage_ranker
        { s with items_waiting_for_lsr := s.items_waiting_for_lsr ++ [item_id] }
      (p.1, [p.2])
    else
      ({ s with items_waiting_for_lsr := s.items_waiting_for_lsr ++ [item_id] }, [])
  else (s, [])

/-- One iteration of the loop in `OnGeneratorCompletion`: compute the value
estimate, merge it into `uv_dict` by max against the stored value (default 0),
then enqueue for the late-stage ranker when the freshly computed estimate
exceeds the threshold and the item has not been sent. -/
def processResult (L : ℚ → ℚ) (generator_id : ℤ) (s : ServiceState)
    (r : GeneratorResult) : ServiceState × List (List String) :=
  let uv_estimate :=
    calculate_user_value_estimate L s.weights generator_id r.rank r.score
  let s1 := { s with uv_dict := (dictSet s.uv_dict r.item_id
      (max ((dictGet s.uv_dict r.item_id).getD 0) uv_estimate)) }
  if uv_estimate > s1.lsr_sufficiency_threshold ∧ r.item_id ∉ s1.already_sent
  then enqueue_for_late_stage_ranker s1 r.item_id
  else (s1, [])

/-- `OnGeneratorCompletion`: process the results in order, collecting every
batch dispatched to the late-stage ranker along the way. -/
def OnGeneratorCompletion (L : ℚ → ℚ) (generator_id : ℤ) (s : ServiceState) :
    List GeneratorResult → ServiceState × List (List String)
  | [] => (s, [])
  | r :: rest =>
    let p := processResult L generator_id s r
    let q := OnGeneratorCompletion L generator_id p.1 rest
    (q.1, p.2 ++ q.2)

/-- `OnTimeOut`: sort the estimate store snapshot by estimate descending,
drop the items already sent, keep the first `max_num_esr`, and dispatch that
list to the early-stage ranker (second component).  The state is returned
unchanged (the flush call on the timeout path is commented out in the
source).  The Python builtin `sorted(..., key=lambda x: x[1], reverse=True)` is the
stable sort for the total preorder "estimate of `x` at least estimate of
`y`"; `List.insertionSort` with that relation is the same stable sort. -/
def OnTimeOut (s : ServiceState) : ServiceState × List (String × ℚ) :=
  let sorted_items := List.insertionSort (fun x y => y.2 ≤ x.2) s.uv_dict
  let filtered := sorted_items.filter (fun x => decide (x.1 ∉ s.already_sent))
  (s, filtered.take s.max_num_esr)

/-- An external stimulus of the service: a generator completion or the
timeout. -/
inductive Event where
  | gen (generator_id : ℤ) (results : List GeneratorResult)
  | timeout
deriving DecidableEq

/-- Apply one event to the state; the second component is the list of batches
dispatched to the late-stage ranker during the event. -/
def stepEvent (L : ℚ → ℚ) (s : ServiceState) : Event → ServiceState × List (List String)
  | Event.gen gid results => OnGeneratorCompletion L gid s results
  | Event.timeout => ((OnTimeOut s).1, [])

/-- Run a sequence of events, concatenating the late-stage dispatch traces. -/
def runEvents (L : ℚ → ℚ) (s : ServiceState) :
    List Event → ServiceState × List (List String)
  | [] => (s, [])
  | e :: rest =>
    let p := stepEvent L s e
    let q := runEvents L p.1 rest
    (q.1, p.2 ++ q.2)

/-- The estimates computed for `item` while processing one result list. -/
def estimatesOfResults (L : ℚ → ℚ) (W : List (ℤ × (ℚ × ℚ × ℚ))) (gid : ℤ)
    (results : List GeneratorResult) (item : String) : List ℚ :=
  results.filterMap fun r =>
    if r.item_id = item then
      some (calculate_user_value_estimate L W gid r.rank r.score)
    else none

/-- Every estimate computed for `item` over a sequence of events, in order. -/
def computedEstimates (L : ℚ → ℚ) (W : List (ℤ × (ℚ × ℚ × ℚ))) :
    List Event → String → List ℚ
  | [], _ => []
  | Event.gen gid results :: rest, item =>
    estimatesOfResults L W gid results item ++ computedEstimates L W rest item
  | Event.timeout :: rest, item => computedEstimates L W rest item

/-- The merge performed at line 51 of the source, as an operation on the
optional stored value: `max(uv_dict.get(item_id, 0), uv_estimate)`. -/
def mergeEst (o : Option ℚ) (u : ℚ) : Option ℚ := some (max (o.getD 0) u)

/-- Invariant tying a state to the history `tr` of batches already dispatched
to the late-stage ranker: no item occurs twice in the history, and every
dispatched item is in the sent-set. -/
def TraceInv (s : ServiceState) (tr : List (List String)) : Prop :=
  tr.flatten.Nodup ∧ ∀ x ∈ tr.flatten, x ∈ s.already_sent

/-! ### Association-list lemmas -/

lemma dictGet_dictSet {κ α : Type} [DecidableEq κ] (d : List (κ × α)) (k key : κ) (v : α) :
    dictGet (dictSet d k v) key = if k = key then some v else dictGet d key := by
  induction d with
  | nil => simp [dictSet, dictGet]
  | cons p rest ih =>
    obtain ⟨k0, v0⟩ := p
    by_cases h0 : k0 = k
    · subst h0
      by_cases h1 : k0 = key <;> simp [dictSet, dictGet, h1]
    · by_cases h1 : k0 = key
      · subst h1
        have hk : ¬k = k0 := fun h => h0 h.symm
        simp [dictSet, dictGet, h0, hk]
      · simp [dictSet, dictGet, h0, h1, ih]

lemma dictSet_eq_self {κ α : Type} [DecidableEq κ] (d : List (κ × α)) (k : κ) (v : α)
    (h : dictGet d k = some v) : dictSet d k v = d := by
  induction d with
  | nil => simp [dictGet] at h
  | cons p rest ih =>
    obtain ⟨k0, v0⟩ := p
    by_cases h0 : k0 = k
    · subst h0
      simp [dictGet] at h
      simp [dictSet, h]
    · simp [dictGet, h0] at h
      simp [dictSet, h0, ih h]

/-! ### Flush-loop lemmas -/

lemma flush_select_spec (q : List String) : ∀ sent : List String,
    (flush_select q sent).2 = sent ++ (flush_select q sent).1 ∧
    (flush_select q sent).1.Nodup ∧
    ∀ i ∈ (flush_select q sent).1, i ∉ sent := by
  induction q with
  | nil => intro sent; simp [flush_select]
  | cons item rest ih =>
    intro sent
    by_cases h : item ∈ sent
    · simpa [flush_select, h] using ih sent
    · obtain ⟨h1, h2, h3⟩ := ih (sent ++ [item])
      refine ⟨?_, ?_, ?_⟩
      · simp [flush_select, h, h1]
      · simp only [flush_select, if_neg h, List.nodup_cons]
        refine ⟨fun hc => ?_, h2⟩
        exact h3 item hc (by simp)
      · intro i hi
        simp only [flush_select, if_neg h, List.mem_cons] at hi
        rcases hi with rfl | hi
        · exact h
        · have := h3 i hi
          simp only [List.mem_append] at this
          exact fun hc => this (Or.inl hc)

lemma flush_select_all (q : List String) : ∀ sent, q.Nodup → (∀ i ∈ q, i ∉ sent) →
    flush_select q sent = (q, sent ++ q) := by
  induction q with
  | nil => intro sent _ _; simp [flush_select]
  | cons item rest ih =>
    intro sent hnd hdisj
    have h : item ∉ sent := hdisj item (by simp)
    have hrest : ∀ i ∈ rest, i ∉ sent ++ [item] := by
      intro i hi
      simp only [List.mem_append, List.mem_singleton]
      rintro (hc | hc)
      · exact hdisj i (by simp [hi]) hc
      · exact (List.nodup_cons.mp hnd).1 (hc ▸ hi)
    have hrec := ih (sent ++ [item]) (List.nodup_cons.mp hnd).2 hrest
    simp [flush_select, h, hrec, List.append_assoc]

/-! ### Frame lemmas: which operation touches which field -/

lemma send_uv_dict (s : ServiceState) :
    (send_to_late_stage_ranker s).1.uv_dict = s.uv_dict := rfl

lemma send_weights (s : ServiceState) :
    (send_to_late_stage_ranker s).1.weights = s.weights := rfl

lemma enqueue_uv_dict (s : ServiceState) (i : String) :
    (enqueue_for_late_stage_ranker s i).1.uv_dict = s.uv_dict := by
  unfold enqueue_for_late_stage_ranker
  split
  · split
    · rfl
    · rfl
  · rfl

lemma enqueue_weights (s : ServiceState) (i : String) :
    (enqueue_for_late_stage_ranker s i).1.weights = s.weights := by
  unfold enqueue_for_late_stage_ranker
  split
  · split
    · rfl
    · rfl
  · rfl

lemma processResult_uv_dict (L : ℚ → ℚ) (gid : ℤ) (s : ServiceState) (r : GeneratorResult) :
    (processResult L gid s r).1.uv_dict =
      dictSet s.uv_dict r.item_id
        (max ((dictGet s.uv_dict r.item_id).getD 0)
          (calculate_user_value_estimate L s.weights gid r.rank r.score)) := by
  simp only [processResult]
  split
  · rw [enqueue_uv_dict]
  · rfl

lemma processResult_weights (L : ℚ → ℚ) (gid : ℤ) (s : ServiceState) (r : GeneratorResult) :
    (processResult L gid s r).1.weights = s.weights := by
  simp only [processResult]
  split
  · rw [enqueue_weights]
  · rfl

/-! ### Dispatch-trace invariant: items sent to the late-stage ranker are
pairwise distinct and recorded in the sent-set -/

lemma TraceInv_send (s : ServiceState) (tr : List (List String)) (h : TraceInv s tr) :
    TraceInv (send_to_late_stage_ranker s).1
      (tr ++ [(send_to_late_stage_ranker s).2]) := by
  obtain ⟨hnd, hmem⟩ := h
  obtain ⟨h1, h2, h3⟩ := flush_select_spec s.items_waiting_for_lsr s.already_sent
  have hsent : (send_to_late_stage_ranker s).1.already_sent =
      s.already_sent ++ (send_to_late_stage_ranker s).2 := h1
  constructor
  · simp only [List.flatten_append, List.flatten_cons, List.flatten_nil, List.append_nil]
    rw [List.nodup_append]
    exact ⟨hnd, h2, fun x hx hx2 => h3 x hx2 (hmem x hx)⟩
  · intro x hx
    simp only [List.flatten_append, List.flatten_cons, List.flatten_nil, List.append_nil,
      List.mem_append] at hx
    rw [hsent, List.mem_append]
    rcases hx with hx | hx
    · exact Or.inl (hmem x hx)
    · exact Or.inr hx

lemma TraceInv_enqueue (s : ServiceState) (i : String) (tr : List (List String))
    (h : TraceInv s tr) :
    TraceInv (enqueue_for_late_stage_ranker s i).1
      (tr ++ (enqueue_for_late_stage_ranker s i).2) := by
  unfold enqueue_for_late_stage_ranker
  split
  · split
    · exact TraceInv_send _ tr h
    · simpa using h
  · simpa using h

lemma TraceInv_processResult (L : ℚ → ℚ) (gid : ℤ) (s : ServiceState)
    (r : GeneratorResult) (tr : List (List String)) (h : TraceInv s tr) :
    TraceInv (processResult L gid s r).1 (tr ++ (processResult L gid s r).2) := by
  simp only [processResult]
  split
  · exact TraceInv_enqueue _ _ tr h
  · simpa using h

lemma TraceInv_OnGeneratorCompletion (L : ℚ → ℚ) (gid : ℤ) :
    ∀ (results : List GeneratorResult) (s : ServiceState) (tr : List (List String)),
      TraceInv s tr →
      TraceInv (OnGeneratorCompletion L gid s results).1
        (tr ++ (OnGeneratorCompletion L gid s results).2) := by
  intro results
  induction results with
  | nil => intro s tr h; simpa [OnGeneratorCompletion] using h
  | cons r rest ih =>
    intro s tr h
    have h1 := TraceInv_processResult L gid s r tr h
    have h2 := ih (processResult L gid s r).1 (tr ++ (processResult L gid s r).2) h1
    simpa [OnGeneratorCompletion, List.append_assoc] using h2

lemma TraceInv_stepEvent (L : ℚ → ℚ) (s : ServiceState) (e : Event)
    (tr : List (List String)) (h : TraceInv s tr) :
    TraceInv (stepEvent L s e).1 (tr ++ (stepEvent L s e).2) := by
  cases e with
  | gen gid results => exact TraceInv_OnGeneratorCompletion L gid results s tr h
  | timeout => simpa [stepEvent, OnTimeOut] using h

lemma TraceInv_runEvents (L : ℚ → ℚ) :
    ∀ (events : List Event) (s : ServiceState) (tr : List (List String)),
      TraceInv s tr →
      TraceInv (runEvents L s events).1 (tr ++ (runEvents L s events).2) := by
  intro events
  induction events with
  | nil => intro s tr h; simpa [runEvents] using h
  | cons e rest ih =>
    intro s tr h
    have h1 := TraceInv_stepEvent L s e tr h
    have h2 := ih (stepEvent L s e).1 (tr ++ (stepEvent L s e).2) h1
    simpa [runEvents, List.append_assoc] using h2

/-! ### Characterizing the estimate store as a fold of merges -/

lemma processResult_uv_lookup (L : ℚ → ℚ) (gid : ℤ) (s : ServiceState)
    (r : GeneratorResult) (item : String) :
    dictGet (processResult L gid s r).1.uv_dict item =
      if r.item_id = item then
        mergeEst (dictGet s.uv_dict item)
          (calculate_user_value_estimate L s.weights gid r.rank r.score)
      else dictGet s.uv_dict item := by
  rw [processResult_uv_dict, dictGet_dictSet]
  by_cases h : r.item_id = item
  · subst h; simp [mergeEst]
  · simp [h]

lemma OnGeneratorCompletion_weights (L : ℚ → ℚ) (gid : ℤ) :
    ∀ (results : List GeneratorResult) (s : ServiceState),
      (OnGeneratorCompletion L gid s results).1.weights = s.weights := by
  intro results
  induction results with
  | nil => intro s; rfl
  | cons r rest ih =>
    intro s
    simp only [OnGeneratorCompletion]
    rw [ih, processResult_weights]

lemma OnGeneratorCompletion_uv_lookup (L : ℚ → ℚ) (gid : ℤ) :
    ∀ (results : List GeneratorResult) (s : ServiceState) (item : String),
      dictGet (OnGeneratorCompletion L gid s results).1.uv_dict item =
        (estimatesOfResults L s.weights gid results item).foldl mergeEst
          (dictGet s.uv_dict item) := by
  intro results
  induction results with
  | nil => intro s item; simp [OnGeneratorCompletion, estimatesOfResults]
  | cons r rest ih =>
    intro s item
    simp only [OnGeneratorCompletion]
    rw [ih, processResult_weights, processResult_uv_lookup]
    simp only [estimatesOfResults, List.filterMap_cons]
    by_cases h : r.item_id = item
    · simp [h, estimatesOfResults]
    · simp [h, estimatesOfResults]

lemma runEvents_weights (L : ℚ → ℚ) :
    ∀ (events : List Event) (s : ServiceState),
      (runEvents L s events).1.weights = s.weights := by
  intro events
  induction events with
  | nil => intro s; rfl
  | cons e rest ih =>
    intro s
    cases e with
    | gen gid results =>
      simp only [runEvents, stepEvent]
      rw [ih, OnGeneratorCompletion_weights]
    | timeout =>
      simp only [runEvents, stepEvent, OnTimeOut]
      exact ih s

lemma runEvents_uv_lookup (L : ℚ → ℚ) :
    ∀ (events : List Event) (s : ServiceState) (item : String),
      dictGet (runEvents L s events).1.uv_dict item =
        (computedEstimates L s.weights events item).foldl mergeEst
          (dictGet s.uv_dict item) := by
  intro events
  induction events with
  | nil => intro s item; simp [runEvents, computedEstimates]
  | cons e rest ih =>
    intro s item
    cases e with
    | gen gid results =>
      simp only [runEvents, stepEvent, computedEstimates]
      rw [ih, OnGeneratorCompletion_weights, OnGeneratorCompletion_uv_lookup,
        List.foldl_append]
    | timeout =>
      simp only [runEvents, stepEvent, OnTimeOut, computedEstimates]
      exact ih s item

/-! ### Folds of `mergeEst` -/

lemma foldl_mergeEst_some (l : List ℚ) : ∀ v : ℚ,
    l.foldl mergeEst (some v) = some (l.foldl max v) := by
  induction l with
  | nil => intro v; rfl
  | cons u rest ih => intro v; simp [List.foldl_cons, mergeEst, ih]

lemma foldl_mergeEst_none (l : List ℚ) (h : l ≠ []) :
    l.foldl mergeEst none = some (l.foldl max 0) := by
  cases l with
  | nil => simp at h
  | cons u rest =>
    simp only [List.foldl_cons, mergeEst, Option.getD_none, foldl_mergeEst_some]

lemma le_foldl_max (l : List ℚ) : ∀ a : ℚ, a ≤ l.foldl max a := by
  induction l with
  | nil => intro a; simp
  | cons u rest ih =>
    intro a
    exact le_trans (le_max_left a u) (ih (max a u))

lemma foldl_max_of_le (l : List ℚ) : ∀ a : ℚ, (∀ u ∈ l, u ≤ a) → l.foldl max a = a := by
  induction l with
  | nil => intro a _; rfl
  | cons u rest ih =>
    intro a h
    rw [List.foldl_cons, max_eq_left (h u (by simp))]
    exact ih a fun x hx => h x (by simp [hx])

/-! ### Claim theorems -/

/-- Claim C7: across the entire lifetime of the service — any sequence of
`OnGeneratorCompletion` and `OnTimeOut` calls starting from a freshly
constructed service — each item_id appears in at most one batch ever
dispatched to the late-stage ranker: the concatenation of all dispatched
batches contains no item twice. -/
theorem C7_lsr_at_most_once (L : ℚ → ℚ) (mlsr : ℕ) (th : ℚ) (mesr mbatch : ℕ)
    (W : List (ℤ × (ℚ × ℚ × ℚ))) (events : List Event) :
    ((runEvents L (initState mlsr th mesr mbatch W) events).2).flatten.Nodup := by
  have h := TraceInv_runEvents L events (initState mlsr th mesr mbatch W) []
    ⟨by simp, by simp⟩
  simpa using h.1

/-- Claim C1 counterexample: with weight triple (0, 1, 0) for generator 1 and
a concrete stand-in for log2, the first sighting of item "a" computes the
estimate -5, yet the stored value is 0, not -5 — the store is not the maximum
of the computed estimates alone, and a first sighting with estimate e does
not always store e. -/
theorem C1_counterexample :
    calculate_user_value_estimate (fun _ => 1) [(1, (0, 1, 0))] 1 1 (-5) = -5 ∧
    dictGet (runEvents (fun _ => 1) (initState 10 1 5 3 [(1, (0, 1, 0))])
      [Event.gen 1 [⟨"a", 1, -5⟩]]).1.uv_dict "a" = some 0 ∧
    (0 : ℚ) ≠ -5 := by
  refine ⟨?_, ?_, by norm_num⟩
  · norm_num [calculate_user_value_estimate, dictGet]
  · norm_num +decide [runEvents, stepEvent, OnGeneratorCompletion, processResult,
      calculate_user_value_estimate, enqueue_for_late_stage_ranker,
      send_to_late_stage_ranker, flush_select, dictGet, dictSet, initState]

/-- Claim C1 (amended): over any run from a fresh service, the value stored
for an item is the maximum of 0 and every estimate ever computed for it (the
first update merges against the default 0), the entry is absent exactly when
no estimate was ever computed, and the stored value never decreases across
any further sequence of events. -/
theorem C1_store_history_max (L : ℚ → ℚ) (mlsr : ℕ) (th : ℚ) (mesr mbatch : ℕ)
    (W : List (ℤ × (ℚ × ℚ × ℚ))) (events : List Event) (item : String) :
    (computedEstimates L W events item = [] →
      dictGet (runEvents L (initState mlsr th mesr mbatch W) events).1.uv_dict
        item = none) ∧
    (computedEstimates L W events item ≠ [] →
      dictGet (runEvents L (initState mlsr th mesr mbatch W) events).1.uv_dict
        item = some ((computedEstimates L W events item).foldl max 0)) ∧
    (∀ (s : ServiceState) (more : List Event) (v : ℚ),
      dictGet s.uv_dict item = some v →
      ∃ v2, dictGet (runEvents L s more).1.uv_dict item = some v2 ∧ v ≤ v2) := by
  have hw : (initState mlsr th mesr mbatch W).weights = W := rfl
  have hu : dictGet (initState mlsr th mesr mbatch W).uv_dict item = none := rfl
  refine ⟨?_, ?_, ?_⟩
  · intro h
    rw [runEvents_uv_lookup, hw, hu, h]
    rfl
  · intro h
    rw [runEvents_uv_lookup, hw, hu, foldl_mergeEst_none _ h]
  · intro s more v hv
    rw [runEvents_uv_lookup, hv, foldl_mergeEst_some]
    exact ⟨_, rfl, le_foldl_max _ v⟩

/-- Claim C1 witness: a concrete run in which the stored value for "b" equals
the fold of its computed-estimate history, and monotonicity applied at a
concrete store. -/
theorem C1_store_history_max_witness :
    dictGet (runEvents (fun _ => 1) (initState 10 1 5 3 [(1, (0, 1, 0))])
      [Event.gen 1 [⟨"b", 1, 4⟩]]).1.uv_dict "b" =
      some ((computedEstimates (fun _ => 1) [(1, (0, 1, 0))]
        [Event.gen 1 [⟨"b", 1, 4⟩]] "b").foldl max 0) :=
  (C1_store_history_max (fun _ => 1) 10 1 5 3 [(1, (0, 1, 0))]
    [Event.gen 1 [⟨"b", 1, 4⟩]] "b").2.1
    (by simp +decide [computedEstimates, estimatesOfResults])

/-- Claim C10: in every state reachable from a fresh service, every value in
the estimate store is nonnegative; an item whose every computed estimate is
negative has stored value 0 rather than its actual maximum estimate. -/
theorem C10_store_nonneg (L : ℚ → ℚ) (mlsr : ℕ) (th : ℚ) (mesr mbatch : ℕ)
    (W : List (ℤ × (ℚ × ℚ × ℚ))) (events : List Event) (item : String) :
    (∀ v : ℚ,
      dictGet (runEvents L (initState mlsr th mesr mbatch W) events).1.uv_dict
        item = some v → 0 ≤ v) ∧
    (computedEstimates L W events item ≠ [] →
      (∀ u ∈ computedEstimates L W events item, u < 0) →
      dictGet (runEvents L (initState mlsr th mesr mbatch W) events).1.uv_dict
        item = some 0) := by
  have hw : (initState mlsr th mesr mbatch W).weights = W := rfl
  have hu : dictGet (initState mlsr th mesr mbatch W).uv_dict item = none := rfl
  constructor
  · intro v hv
    rw [runEvents_uv_lookup, hw, hu] at hv
    by_cases h : computedEstimates L W events item = []
    · rw [h] at hv
      simp [List.foldl_nil] at hv
    · rw [foldl_mergeEst_none _ h] at hv
      have hv2 := Option.some_inj.mp hv
      rw [← hv2]
      exact le_foldl_max _ 0
  · intro hne hneg
    rw [runEvents_uv_lookup, hw, hu, foldl_mergeEst_none _ hne,
      foldl_max_of_le _ 0 fun u hu2 => le_of_lt (hneg u hu2)]

/-- Claim C10 witness: a run whose only estimate for "n" is -3 stores 0,
which is nonnegative. -/
theorem C10_store_nonneg_witness :
    dictGet (runEvents (fun _ => 1) (initState 10 1 5 3 [(2, (0, 1, 0))])
      [Event.gen 2 [⟨"n", 1, -3⟩]]).1.uv_dict "n" = some 0 ∧ (0 : ℚ) ≤ 0 := by
  constructor
  · exact (C10_store_nonneg (fun _ => 1) 10 1 5 3 [(2, (0, 1, 0))]
      [Event.gen 2 [⟨"n", 1, -3⟩]] "n").2
      (by simp +decide [computedEstimates, estimatesOfResults])
      (by
        intro u hu2
        simp +decide [computedEstimates, estimatesOfResults,
          calculate_user_value_estimate, dictGet] at hu2
        rw [hu2]
        norm_num)
  · exact (C10_store_nonneg (fun _ => 1) 10 1 5 3 [(2, (0, 1, 0))]
      [Event.gen 2 [⟨"n", 1, -3⟩]] "n").1 0
      (by norm_num +decide [runEvents, stepEvent, OnGeneratorCompletion,
        processResult, calculate_user_value_estimate,
        enqueue_for_late_stage_ranker, send_to_late_stage_ranker, flush_select,
        dictGet, dictSet, initState])

/-- Claim C9: delivering the identical (generator_id, rank, score) result for
an item a second time leaves the estimate store exactly as after the first
delivery — merge-by-max makes repeated delivery idempotent on the store. -/
theorem C9_merge_idempotent (L : ℚ → ℚ) (gid : ℤ) (s : ServiceState)
    (r : GeneratorResult) :
    (processResult L gid (processResult L gid s r).1 r).1.uv_dict =
      (processResult L gid s r).1.uv_dict := by
  have hl := processResult_uv_lookup L gid s r r.item_id
  rw [if_pos rfl] at hl
  simp only [mergeEst] at hl
  have h1 := processResult_uv_dict L gid (processResult L gid s r).1 r
  rw [processResult_weights, hl] at h1
  simp only [Option.getD_some] at h1
  rw [max_eq_left (le_max_right _ _)] at h1
  rw [h1]
  exact dictSet_eq_self _ _ _ hl

/-- Claim C2 counterexample: threshold -1, weights (0, 1, 0) for generator 1.
After item "a" arrives once with per-arrival estimate -5, its stored
post-update estimate is 0, which strictly exceeds the threshold -1; "a" is
not in the sent-set, the budget is open and the queue was empty — yet the
admission queue is empty: the code did not enqueue "a", because the admission
test reads the per-arrival estimate (-5), not the stored value (0). -/
theorem C2_counterexample :
    dictGet (runEvents (fun _ => 1) (initState 10 (-1) 5 3 [(1, (0, 1, 0))])
      [Event.gen 1 [⟨"a", 1, -5⟩]]).1.uv_dict "a" = some 0 ∧
    (runEvents (fun _ => 1) (initState 10 (-1) 5 3 [(1, (0, 1, 0))])
      [Event.gen 1 [⟨"a", 1, -5⟩]]).1.lsr_sufficiency_threshold = -1 ∧
    ((0 : ℚ) > -1) ∧
    "a" ∉ (runEvents (fun _ => 1) (initState 10 (-1) 5 3 [(1, (0, 1, 0))])
      [Event.gen 1 [⟨"a", 1, -5⟩]]).1.already_sent ∧
    (runEvents (fun _ => 1) (initState 10 (-1) 5 3 [(1, (0, 1, 0))])
      [Event.gen 1 [⟨"a", 1, -5⟩]]).1.num_lsr_sent <
      (runEvents (fun _ => 1) (initState 10 (-1) 5 3 [(1, (0, 1, 0))])
      [Event.gen 1 [⟨"a", 1, -5⟩]]).1.max_num_lsr ∧
    (runEvents (fun _ => 1) (initState 10 (-1) 5 3 [(1, (0, 1, 0))])
      [Event.gen 1 [⟨"a", 1, -5⟩]]).1.items_waiting_for_lsr = [] := by
  refine ⟨?_, ?_, by norm_num, ?_, ?_, ?_⟩ <;>
    norm_num +decide [runEvents, stepEvent, OnGeneratorCompletion, processResult,
      calculate_user_value_estimate, enqueue_for_late_stage_ranker,
      send_to_late_stage_ranker, flush_select, dictGet, dictSet, initState]

/-- Claim C2 (amended): the admission test in `OnGeneratorCompletion` reads
the newly computed per-arrival estimate, not the stored post-update value:
when the budget is open, the item is not yet queued, and the queue stays
below the batch size, the item is appended to the admission queue iff the
per-arrival estimate strictly exceeds the threshold and the item is not in
the sent-set. -/
theorem C2_admission_uses_arrival_estimate (L : ℚ → ℚ) (gid : ℤ)
    (s : ServiceState) (r : GeneratorResult)
    (hb : s.num_lsr_sent < s.max_num_lsr)
    (hq : r.item_id ∉ s.items_waiting_for_lsr)
    (hlen : s.items_waiting_for_lsr.length + 1 < s.lsr_batch_size) :
    (processResult L gid s r).1.items_waiting_for_lsr =
      if calculate_user_value_estimate L s.weights gid r.rank r.score >
            s.lsr_sufficiency_threshold ∧ r.item_id ∉ s.already_sent
      then s.items_waiting_for_lsr ++ [r.item_id]
      else s.items_waiting_for_lsr := by
  simp only [processResult]
  split
  · unfold enqueue_for_late_stage_ranker
    split
    · split
      · rename_i hc
        exfalso
        simp only [List.length_append, List.length_singleton] at hc
        omega
      · rfl
    · rename_i hc
      exact absurd ⟨hb, hq⟩ hc
  · rfl

/-- Claim C2 witness: a concrete arrival whose per-arrival estimate 7 exceeds
the threshold 1 is appended to the empty queue. -/
theorem C2_admission_uses_arrival_estimate_witness :
    (processResult (fun _ => 1) 1 (initState 10 1 5 3 []) ⟨"q", 1, 5⟩).1.items_waiting_for_lsr =
      if calculate_user_value_estimate (fun _ => 1)
            (initState 10 1 5 3 []).weights 1 (GeneratorResult.mk "q" 1 5).rank
            (GeneratorResult.mk "q" 1 5).score >
          (initState 10 1 5 3 []).lsr_sufficiency_threshold ∧
          (GeneratorResult.mk "q" 1 5).item_id ∉ (initState 10 1 5 3 []).already_sent
      then (initState 10 1 5 3 []).items_waiting_for_lsr ++
          [(GeneratorResult.mk "q" 1 5).item_id]
      else (initState 10 1 5 3 []).items_waiting_for_lsr :=
  C2_admission_uses_arrival_estimate (fun _ => 1) 1 (initState 10 1 5 3 [])
    ⟨"q", 1, 5⟩ (by norm_num [initState]) (by simp [initState])
    (by norm_num [initState])

/-- Claim C3: from a state with 8 items in the sent-set, `num_lsr_sent = 8`,
`max_num_lsr = 10` and `lsr_batch_size = 3`, a burst of 3 qualifying items
is fully dispatched in one flush and leaves `num_lsr_sent = 11 > 10`: the
ceiling check at admission time reads the counter before the batch flushes. -/
theorem C3_budget_overshoot :
    (OnGeneratorCompletion (fun _ => 1) 1
        { max_num_lsr := 10, lsr_sufficiency_threshold := 11/10, max_num_esr := 5,
          lsr_batch_size := 3, weights := [(1, (0, 1, 0))], uv_dict := [],
          num_lsr_sent := 8, items_waiting_for_lsr := [],
          already_sent := ["s1", "s2", "s3", "s4", "s5", "s6", "s7", "s8"] }
        [⟨"a", 1, 5⟩, ⟨"b", 1, 5⟩, ⟨"c", 1, 5⟩]).2 = [["a", "b", "c"]] ∧
    (OnGeneratorCompletion (fun _ => 1) 1
        { max_num_lsr := 10, lsr_sufficiency_threshold := 11/10, max_num_esr := 5,
          lsr_batch_size := 3, weights := [(1, (0, 1, 0))], uv_dict := [],
          num_lsr_sent := 8, items_waiting_for_lsr := [],
          already_sent := ["s1", "s2", "s3", "s4", "s5", "s6", "s7", "s8"] }
        [⟨"a", 1, 5⟩, ⟨"b", 1, 5⟩, ⟨"c", 1, 5⟩]).1.num_lsr_sent = 11 ∧
    (OnGeneratorCompletion (fun _ => 1) 1
        { max_num_lsr := 10, lsr_sufficiency_threshold := 11/10, max_num_esr := 5,
          lsr_batch_size := 3, weights := [(1, (0, 1, 0))], uv_dict := [],
          num_lsr_sent := 8, items_waiting_for_lsr := [],
          already_sent := ["s1", "s2", "s3", "s4", "s5", "s6", "s7", "s8"] }
        [⟨"a", 1, 5⟩, ⟨"b", 1, 5⟩, ⟨"c", 1, 5⟩]).1.max_num_lsr = 10 ∧
    (10 : ℕ) < 11 := by
  refine ⟨?_, ?_, ?_, by norm_num⟩ <;>
    norm_num +decide [OnGeneratorCompletion, processResult,
      calculate_user_value_estimate, enqueue_for_late_stage_ranker,
      send_to_late_stage_ranker, flush_select, dictGet, dictSet]

/-- Claim C4: `Enqueue` is a no-op when the sent counter has reached
`max_num_lsr` or the item is already queued; otherwise it appends in FIFO
order; and the moment the queue length reaches `lsr_batch_size` a flush
dispatches the entire batch in FIFO order, adds every flushed item to the
sent-set, increments `num_lsr_sent` by the (de-duplicated) length of the batch,
and leaves the queue empty.  The flush clauses assume the queue invariants
that hold at every call site: no duplicates and no already-sent entries. -/
theorem C4_enqueue_flush_behavior (s : ServiceState) (item : String) :
    (s.max_num_lsr ≤ s.num_lsr_sent ∨ item ∈ s.items_waiting_for_lsr →
      enqueue_for_late_stage_ranker s item = (s, [])) ∧
    (s.num_lsr_sent < s.max_num_lsr → item ∉ s.items_waiting_for_lsr →
      (s.items_waiting_for_lsr ++ [item]).length < s.lsr_batch_size →
      enqueue_for_late_stage_ranker s item =
        ({ s with items_waiting_for_lsr := s.items_waiting_for_lsr ++ [item] }, [])) ∧
    (s.num_lsr_sent < s.max_num_lsr → item ∉ s.items_waiting_for_lsr →
      s.lsr_batch_size ≤ (s.items_waiting_for_lsr ++ [item]).length →
      (s.items_waiting_for_lsr ++ [item]).Nodup →
      (∀ i ∈ s.items_waiting_for_lsr ++ [item], i ∉ s.already_sent) →
      enqueue_for_late_stage_ranker s item =
        ({ s with
            items_waiting_for_lsr := [],
            already_sent := s.already_sent ++ (s.items_waiting_for_lsr ++ [item]),
            num_lsr_sent :=
              s.num_lsr_sent + (s.items_waiting_for_lsr ++ [item]).length },
          [s.items_waiting_for_lsr ++ [item]])) := by
  refine ⟨?_, ?_, ?_⟩
  · intro h
    unfold enqueue_for_late_stage_ranker
    rw [if_neg]
    rintro ⟨h1, h2⟩
    rcases h with h | h
    · exact absurd h1 (not_lt.mpr h)
    · exact h2 h
  · intro h1 h2 hlen
    unfold enqueue_for_late_stage_ranker
    rw [if_pos ⟨h1, h2⟩, if_neg (not_le.mpr hlen)]
  · intro h1 h2 hlen hnd hdisj
    unfold enqueue_for_late_stage_ranker
    rw [if_pos ⟨h1, h2⟩, if_pos hlen]
    simp only [send_to_late_stage_ranker]
    rw [flush_select_all _ _ hnd hdisj]

/-- Claim C4 witness: on a concrete state with batch size 2 and one item
waiting, enqueuing a second item triggers the flush clause. -/
theorem C4_enqueue_flush_behavior_witness :
    enqueue_for_late_stage_ranker
        { max_num_lsr := 10, lsr_sufficiency_threshold := 1, max_num_esr := 5,
          lsr_batch_size := 2, weights := [], uv_dict := [],
          num_lsr_sent := 0, items_waiting_for_lsr := ["x"],
          already_sent := ["z"] } "y" =
      ({ max_num_lsr := 10, lsr_sufficiency_threshold := 1, max_num_esr := 5,
          lsr_batch_size := 2, weights := [], uv_dict := [],
          num_lsr_sent := 0 + (["x"] ++ ["y"]).length,
          items_waiting_for_lsr := [],
          already_sent := ["z"] ++ (["x"] ++ ["y"]) },
        [["x"] ++ ["y"]]) :=
  (C4_enqueue_flush_behavior
    { max_num_lsr := 10, lsr_sufficiency_threshold := 1, max_num_esr := 5,
      lsr_batch_size := 2, weights := [], uv_dict := [],
      num_lsr_sent := 0, items_waiting_for_lsr := ["x"],
      already_sent := ["z"] } "y").2.2
    (by norm_num) (by simp +decide) (by simp) (by simp +decide) (by simp +decide)

/-- Claim C6 counterexample: rank 0 (< 1) is not rejected: the scorer
returns a normal value, identical to the rank-1 value — the `max(1+rank, 2)`
floor silently coerces every rank below 1. -/
theorem C6_counterexample :
    calculate_user_value_estimate (fun q => q) [] 1 0 7 =
      calculate_user_value_estimate (fun q => q) [] 1 1 7 ∧
    calculate_user_value_estimate (fun q => q) [] 1 0 7 = 17/2 := by
  constructor <;>
    norm_num +decide [calculate_user_value_estimate, dictGet]

/-- Claim C6 (amended): a rank below 1 is silently coerced by the
`max(1+rank, 2)` floor — the scorer returns the same value as for rank 1
instead of raising a validation error — while the score enters the formula
linearly and unclamped, with coefficient w1. -/
theorem C6_rank_clamped_score_unclamped (L : ℚ → ℚ)
    (W : List (ℤ × (ℚ × ℚ × ℚ))) (gid : ℤ) (score : ℚ) (rank : ℤ)
    (h : rank < 1) :
    calculate_user_value_estimate L W gid rank score =
      calculate_user_value_estimate L W gid 1 score ∧
    ∀ sc : ℚ, calculate_user_value_estimate L W gid rank sc =
      calculate_user_value_estimate L W gid rank 0 +
        ((dictGet W gid).getD (1, 1, 1)).2.1 * sc := by
  constructor
  · have h2 : max (1 + rank) 2 = (2 : ℤ) := max_eq_right (by omega)
    have h3 : max (1 + (1 : ℤ)) 2 = (2 : ℤ) := by norm_num
    simp only [calculate_user_value_estimate, h2, h3]
  · intro sc
    simp only [calculate_user_value_estimate]
    ring

/-- Claim C6 witness: the amended behavior at rank 0 with concrete weights. -/
theorem C6_rank_clamped_score_unclamped_witness :
    calculate_user_value_estimate (fun q => q) [] 1 0 7 =
      calculate_user_value_estimate (fun q => q) [] 1 1 7 ∧
    calculate_user_value_estimate (fun q => q) [] 1 0 7 =
      calculate_user_value_estimate (fun q => q) [] 1 0 0 +
        ((dictGet [] 1).getD (1, 1, 1)).2.1 * 7 :=
  ⟨(C6_rank_clamped_score_unclamped (fun q => q) [] 1 7 0 (by norm_num)).1,
    (C6_rank_clamped_score_unclamped (fun q => q) [] 1 7 0 (by norm_num)).2 7⟩

/-- Claim C5: `OnTimeOut` dispatches the estimate-store snapshot sorted by
estimate descending, with already-sent items removed, truncated to
`max_num_esr` entries; concretely, on stored estimates {a:5, b:3, c:9, d:1}
with `max_num_esr = 2` it dispatches exactly [(c,9), (a,5)] when nothing is
sent, and [(c,9), (b,3)] when "a" is already in the sent-set. -/
theorem C5_timeout_selection :
    (∀ s : ServiceState,
      ((OnTimeOut s).2).Pairwise (fun a b : String × ℚ => b.2 ≤ a.2) ∧
      ((OnTimeOut s).2).length ≤ s.max_num_esr ∧
      (∀ p ∈ (OnTimeOut s).2, p ∈ s.uv_dict ∧ p.1 ∉ s.already_sent)) ∧
    (OnTimeOut
        { max_num_lsr := 10, lsr_sufficiency_threshold := 1, max_num_esr := 2,
          lsr_batch_size := 3, weights := [],
          uv_dict := [("a", 5), ("b", 3), ("c", 9), ("d", 1)],
          num_lsr_sent := 0, items_waiting_for_lsr := [],
          already_sent := [] }).2 = [("c", 9), ("a", 5)] ∧
    (OnTimeOut
        { max_num_lsr := 10, lsr_sufficiency_threshold := 1, max_num_esr := 2,
          lsr_batch_size := 3, weights := [],
          uv_dict := [("a", 5), ("b", 3), ("c", 9), ("d", 1)],
          num_lsr_sent := 0, items_waiting_for_lsr := [],
          already_sent := ["a"] }).2 = [("c", 9), ("b", 3)] := by
  refine ⟨?_, ?_, ?_⟩
  · intro s
    haveI ht : IsTotal (String × ℚ) (fun x y => y.2 ≤ x.2) :=
      ⟨fun a b => le_total b.2 a.2⟩
    haveI htr : IsTrans (String × ℚ) (fun x y => y.2 ≤ x.2) :=
      ⟨fun a b c h1 h2 => le_trans h2 h1⟩
    have hsorted := List.sorted_insertionSort
      (fun x y : String × ℚ => y.2 ≤ x.2) s.uv_dict
    have hsub : List.Sublist (OnTimeOut s).2
        (List.insertionSort (fun x y : String × ℚ => y.2 ≤ x.2) s.uv_dict) := by
      simp only [OnTimeOut]
      exact (List.take_sublist _ _).trans (List.filter_sublist _)
    refine ⟨List.Pairwise.sublist hsub hsorted, ?_, ?_⟩
    · simp only [OnTimeOut]
      exact List.length_take_le _ _
    · intro p hp
      simp only [OnTimeOut] at hp
      have hp2 := List.mem_of_mem_take hp
      rw [List.mem_filter] at hp2
      refine ⟨?_, of_decide_eq_true hp2.2⟩
      have := hp2.1
      rwa [List.mem_insertionSort] at this
  · norm_num +decide [OnTimeOut, List.insertionSort, List.orderedInsert]
  · norm_num +decide [OnTimeOut, List.insertionSort, List.orderedInsert]

/-- Claim C5 witness: the general selection facts applied to the concrete
timeout scenario, at its top dispatched pair. -/
theorem C5_timeout_selection_witness :
    ("c", (9 : ℚ)) ∈
      ({ max_num_lsr := 10, lsr_sufficiency_threshold := 1, max_num_esr := 2,
          lsr_batch_size := 3, weights := [],
          uv_dict := [("a", 5), ("b", 3), ("c", 9), ("d", 1)],
          num_lsr_sent := 0, items_waiting_for_lsr := [],
          already_sent := [] } : ServiceState).uv_dict ∧
    ("c", (9 : ℚ)).1 ∉
      ({ max_num_lsr := 10, lsr_sufficiency_threshold := 1, max_num_esr := 2,
          lsr_batch_size := 3, weights := [],
          uv_dict := [("a", 5), ("b", 3), ("c", 9), ("d", 1)],
          num_lsr_sent := 0, items_waiting_for_lsr := [],
          already_sent := [] } : ServiceState).already_sent :=
  (C5_timeout_selection.1
    { max_num_lsr := 10, lsr_sufficiency_threshold := 1, max_num_esr := 2,
      lsr_batch_size := 3, weights := [],
      uv_dict := [("a", 5), ("b", 3), ("c", 9), ("d", 1)],
      num_lsr_sent := 0, items_waiting_for_lsr := [],
      already_sent := [] }).2.2 ("c", 9)
    (by norm_num +decide [OnTimeOut, List.insertionSort, List.orderedInsert])

/-- Claim C8: `OnTimeOut` leaves the whole service state — estimate store,
admission queue, sent-set and counter — unchanged; in particular its selected
items are not added to the sent-set, so an item dispatched on the timeout
path still passes the sent-set test if it resurfaces from a generator. -/
theorem C8_timeout_frame (s : ServiceState) :
    (OnTimeOut s).1 = s ∧
    ∀ p ∈ (OnTimeOut s).2, p.1 ∉ (OnTimeOut s).1.already_sent := by
  refine ⟨rfl, ?_⟩
  intro p hp
  simp only [OnTimeOut] at hp ⊢
  have hp2 := List.mem_of_mem_take hp
  rw [List.mem_filter] at hp2
  exact of_decide_eq_true hp2.2

/-- Claim C8 witness: in the scenario with "a" already sent, the dispatched
pair ("c", 9) is not in the (unchanged) sent-set afterwards. -/
theorem C8_timeout_frame_witness :
    ("c", (9 : ℚ)).1 ∉
      (OnTimeOut
        { max_num_lsr := 10, lsr_sufficiency_threshold := 1, max_num_esr := 2,
          lsr_batch_size := 3, weights := [],
          uv_dict := [("a", 5), ("b", 3), ("c", 9), ("d", 1)],
          num_lsr_sent := 0, items_waiting_for_lsr := [],
          already_sent := ["a"] }).1.already_sent :=
  (C8_timeout_frame
    { max_num_lsr := 10, lsr_sufficiency_threshold := 1, max_num_esr := 2,
      lsr_batch_size := 3, weights := [],
      uv_dict := [("a", 5), ("b", 3), ("c", 9), ("d", 1)],
      num_lsr_sent := 0, items_waiting_for_lsr := [],
      already_sent := ["a"] }).2 ("c", 9)
    (by norm_num +decide [OnTimeOut, List.insertionSort, List.orderedInsert])

end PipelinedEarlyRanker
